import Mathlib

/-!
Shallow embedding of LibrePCB's `SI_Symbol` class
(`src/libs/librepcbproject/schematics/items/si_symbol.cpp`), the placed
instance of a library symbol on a schematic sheet, together with the
surrounding data it dereferences (circuit, component instance, symbol
variant, project library, XML DOM elements).

Modelling conventions:
* `Uuid` wraps a `Nat`; the null UUID is `⟨0⟩` (`Uuid::isNull`).
* `Length` and `Angle` are integers (LibrePCB stores nanometers and
  microdegrees in integer types).
* Qt's `QMap<Uuid, T>` is modelled as an association list
  `List (Uuid × T)`; `contains` is key membership, `count` is length,
  and `insert` of an absent key appends.  Only membership and
  cardinality of the key set are observable in the claims.
* C++ exceptions (`RuntimeError`, `LogicError`) become `Except Err`.
* External classes whose implementation is not part of the excerpt
  (`Circuit`, `ComponentInstance`, `ProjectLibrary`, `XmlDomElement`,
  `GraphicsScene`, the attribute providers) are modelled with just the
  interface `si_symbol.cpp` uses; their lookup methods are list
  searches by UUID, and their attribute-resolution methods are opaque
  function fields.
* GUI-only effects (graphics items, repaints, Qt signal connections)
  have no observable footprint in the claims and are omitted.
-/

namespace LibrePCB

/-- Model of `Length` (an integer coordinate type in librepcbcommon). -/
abbrev Length := Int

/-- Model of `Angle` (an integer angle type in librepcbcommon). -/
abbrev Angle := Int

/-- Model of `Uuid`; `⟨0⟩` plays the role of the null UUID. -/
structure Uuid where
  val : Nat
deriving DecidableEq, Repr

/-- Model of `Uuid::isNull()`. -/
def Uuid.isNull (u : Uuid) : Bool :=
  u.val == 0

/-- Model of `Point` (a 2D integer coordinate pair). -/
structure Point where
  x : Length
  y : Length
deriving DecidableEq, Repr

instance : Add Point :=
  ⟨fun p q => ⟨p.x + q.x, p.y + q.y⟩⟩

/-- Model of `library::SymbolPin`: only its UUID is used by `SI_Symbol`. -/
structure SymbolPin where
  uuid : Uuid
deriving DecidableEq, Repr

/-- Model of `library::Symbol`: its UUID and its pin list (`getPins()`). -/
structure Symbol where
  uuid : Uuid
  pins : List SymbolPin
deriving DecidableEq, Repr

/-- Model of a symbol-variant item: UUID, referenced symbol UUID, name
suffix (`getSuffix()`), and the pin-signal map (`getPinSignalMap()`,
a `QMap` keyed by pin UUID). -/
structure SymbolVariantItem where
  uuid : Uuid
  symbolUuid : Uuid
  suffix : String
  pinSignalMap : List (Uuid × Uuid)
deriving DecidableEq, Repr

/-- Model of a symbol variant: the list of its items. -/
structure SymbolVariant where
  items : List SymbolVariantItem
deriving DecidableEq, Repr

/-- Model of `SymbolVariant::getItemByUuid`: first item with the given
UUID, or null. -/
def SymbolVariant.getItemByUuid (v : SymbolVariant) (u : Uuid) : Option SymbolVariantItem :=
  v.items.find? (fun it => decide (it.uuid = u))

/-- Model of `ComponentInstance`: UUID, name (`getName()`), its symbol
variant (`getSymbolVariant()`), and its attribute resolver
(`getAttributeValue`, opaque to this excerpt; `none` models returning
`false`). -/
structure ComponentInstance where
  uuid : Uuid
  name : String
  symbolVariant : SymbolVariant
  attrValue : String → String → Bool → Option String

/-- Model of `Circuit`: the component instances it owns. -/
structure Circuit where
  componentInstances : List ComponentInstance

/-- Model of `Circuit::getComponentInstanceByUuid`: first component
instance with the given UUID, or null. -/
def Circuit.getComponentInstanceByUuid (c : Circuit) (u : Uuid) : Option ComponentInstance :=
  c.componentInstances.find? (fun ci => decide (ci.uuid = u))

/-- Model of `ProjectLibrary`: the symbols it holds. -/
structure ProjectLibrary where
  symbols : List Symbol

/-- Model of `ProjectLibrary::getSymbol`: first symbol with the given
UUID, or null. -/
def ProjectLibrary.getSymbol (l : ProjectLibrary) (u : Uuid) : Option Symbol :=
  l.symbols.find? (fun s => decide (s.uuid = u))

/-- Model of `Project`: its circuit and its library. -/
structure Project where
  circuit : Circuit
  library : ProjectLibrary

/-- Model of `Schematic`: its project and its attribute resolver
(`getAttributeValue`, opaque to this excerpt). -/
structure Schematic where
  project : Project
  attrValue : String → String → Bool → Option String

/-- Exceptions thrown by `si_symbol.cpp` (one constructor per `throw`
site) plus the XML-parsing failures of `XmlDomElement::getAttribute`
and `getFirstChild`. -/
inductive Err where
  | componentNotFound (uuid : Uuid)
  | symbVarItemInvalid (uuid : Uuid)
  | symbolNotFound (uuid : Uuid)
  | pinDefinedMultipleTimes (uuid : Uuid)
  | pinNotInSignalMap (uuid : Uuid)
  | pinCountMismatch (pinCount mapCount : Nat)
  | logicError
  | xmlError (key : String)
deriving DecidableEq, Repr

/-- Typed XML attribute values as written/read by `SI_Symbol`:
`getAttribute<Uuid>`, `getAttribute<Length>`, `getAttribute<Angle>`. -/
inductive AttrValue where
  | uuidV (u : Uuid)
  | lengthV (v : Length)
  | angleV (v : Angle)
deriving DecidableEq, Repr

/-- Model of `XmlDomElement`: tag name, attribute list, child list. -/
inductive XmlDomElement where
  | mk (name : String) (attrs : List (String × AttrValue)) (children : List XmlDomElement)

/-- Tag name of an XML element. -/
def XmlDomElement.name : XmlDomElement → String
  | .mk n _ _ => n

/-- Attribute list of an XML element. -/
def XmlDomElement.attrs : XmlDomElement → List (String × AttrValue)
  | .mk _ a _ => a

/-- Child list of an XML element. -/
def XmlDomElement.children : XmlDomElement → List XmlDomElement
  | .mk _ _ c => c

/-- Raw attribute lookup; a missing attribute throws, as
`XmlDomElement::getAttribute` does. -/
def XmlDomElement.getAttributeRaw (e : XmlDomElement) (key : String) : Except Err AttrValue :=
  match e.attrs.find? (fun a => decide (a.1 = key)) with
  | some a => .ok a.2
  | none => .error (.xmlError key)

/-- Model of `getAttribute<Uuid>`: missing attribute or wrong value
type throws. -/
def XmlDomElement.getUuidAttribute (e : XmlDomElement) (key : String) : Except Err Uuid :=
  match e.getAttributeRaw key with
  | .ok (.uuidV u) => .ok u
  | .ok _ => .error (.xmlError key)
  | .error err => .error err

/-- Model of `getAttribute<Length>`. -/
def XmlDomElement.getLengthAttribute (e : XmlDomElement) (key : String) : Except Err Length :=
  match e.getAttributeRaw key with
  | .ok (.lengthV v) => .ok v
  | .ok _ => .error (.xmlError key)
  | .error err => .error err

/-- Model of `getAttribute<Angle>`. -/
def XmlDomElement.getAngleAttribute (e : XmlDomElement) (key : String) : Except Err Angle :=
  match e.getAttributeRaw key with
  | .ok (.angleV v) => .ok v
  | .ok _ => .error (.xmlError key)
  | .error err => .error err

/-- Model of `getFirstChild(name, true)`: first child with the given
tag name; throws when absent. -/
def XmlDomElement.getFirstChild (e : XmlDomElement) (childName : String) : Except Err XmlDomElement :=
  match e.children.find? (fun ch => decide (ch.name = childName)) with
  | some ch => .ok ch
  | none => .error (.xmlError childName)

/-- Model of `SI_SymbolPin`: created as `SI_SymbolPin(*this,
libPin->getUuid())`; only the pin UUID is observable here. -/
structure SI_SymbolPin where
  uuid : Uuid
deriving DecidableEq, Repr

/-- Model of the `SI_Symbol` object state.  The C++ pointer members
`mComponentInstance`, `mSymbVarItem`, `mSymbol` become `Option` fields
(`none` models the null pointer); `mSchematic` is a C++ reference and
therefore a plain field. -/
structure SI_Symbol where
  schematic : Schematic
  uuid : Uuid
  componentInstance : Option ComponentInstance
  symbVarItem : Option SymbolVariantItem
  symbol : Option Symbol
  position : Point
  rotation : Angle
  pins : List (Uuid × SI_SymbolPin)

/-- Model of `SI_Symbol::checkAttributesValidity`, with the checks in
source order. -/
def SI_Symbol.checkAttributesValidity (s : SI_Symbol) : Bool :=
  if s.symbVarItem.isNone then false
  else if s.symbol.isNone then false
  else if Uuid.isNull s.uuid then false
  else if s.componentInstance.isNone then false
  else true

/-- Model of the `foreach` pin-construction loop in `SI_Symbol::init`
(lines 98-114): for each library pin, throw on a duplicate pin UUID,
throw when the UUID is missing from the pin-signal map, otherwise
insert the new `SI_SymbolPin` into the accumulating map `acc`. -/
def buildPins : List SymbolPin → List (Uuid × Uuid) → List (Uuid × SI_SymbolPin) →
    Except Err (List (Uuid × SI_SymbolPin))
  | [], _, acc => .ok acc
  | libPin :: rest, psMap, acc =>
    if libPin.uuid ∈ acc.map Prod.fst then
      .error (.pinDefinedMultipleTimes libPin.uuid)
    else if libPin.uuid ∉ psMap.map Prod.fst then
      .error (.pinNotInSignalMap libPin.uuid)
    else
      buildPins rest psMap (acc ++ [(libPin.uuid, ⟨libPin.uuid⟩)])

/-- Model of `SI_Symbol::init`: resolve the symbol-variant item, then
the library symbol, build the pin map, check its count against the
pin-signal map, and finally run `checkAttributesValidity` (throwing
`LogicError` on failure).  The graphics item creation and the Qt
signal connection have no model-visible effect. -/
def SI_Symbol.init (schematic : Schematic) (cmpInstance : ComponentInstance) (uuid : Uuid)
    (position : Point) (rotation : Angle) (symbVarItemUuid : Uuid) : Except Err SI_Symbol :=
  match cmpInstance.symbolVariant.getItemByUuid symbVarItemUuid with
  | none => .error (.symbVarItemInvalid symbVarItemUuid)
  | some symbVarItem =>
    match schematic.project.library.getSymbol symbVarItem.symbolUuid with
    | none => .error (.symbolNotFound symbVarItem.symbolUuid)
    | some symbol =>
      match buildPins symbol.pins symbVarItem.pinSignalMap [] with
      | .error e => .error e
      | .ok pins =>
        if pins.length ≠ symbVarItem.pinSignalMap.length then
          .error (.pinCountMismatch pins.length symbVarItem.pinSignalMap.length)
        else
          if SI_Symbol.checkAttributesValidity
              ⟨schematic, uuid, some cmpInstance, some symbVarItem, some symbol,
               position, rotation, pins⟩ then
            .ok ⟨schematic, uuid, some cmpInstance, some symbVarItem, some symbol,
                 position, rotation, pins⟩
          else .error .logicError

/-- Model of the XML constructor `SI_Symbol(Schematic&, const
XmlDomElement&)`: read `uuid`, resolve `component_instance` in the
circuit (throwing when absent), read the `position` child's `x`, `y`,
`rotation`, read `symbol_item`, then run `init`. -/
def SI_Symbol.fromXml (schematic : Schematic) (domElement : XmlDomElement) :
    Except Err SI_Symbol :=
  match domElement.getUuidAttribute "uuid" with
  | .error e => .error e
  | .ok uuid =>
    match domElement.getUuidAttribute "component_instance" with
    | .error e => .error e
    | .ok gcUuid =>
      match schematic.project.circuit.getComponentInstanceByUuid gcUuid with
      | none => .error (.componentNotFound gcUuid)
      | some cmpInstance =>
        match domElement.getFirstChild "position" with
        | .error e => .error e
        | .ok posEl =>
          match posEl.getLengthAttribute "x" with
          | .error e => .error e
          | .ok x =>
            match posEl.getLengthAttribute "y" with
            | .error e => .error e
            | .ok y =>
              match posEl.getAngleAttribute "rotation" with
              | .error e => .error e
              | .ok rotation =>
                match domElement.getUuidAttribute "symbol_item" with
                | .error e => .error e
                | .ok symbVarItemUuid =>
                  SI_Symbol.init schematic cmpInstance uuid ⟨x, y⟩ rotation symbVarItemUuid

/-- Model of the placement constructor `SI_Symbol(Schematic&,
ComponentInstance&, const Uuid& symbolItem, const Point&, const
Angle&)`.  The call `mUuid = Uuid::createRandom()` is modelled by the
extra input `freshUuid`, standing for the generator's output. -/
def SI_Symbol.place (schematic : Schematic) (cmpInstance : ComponentInstance)
    (symbolItem : Uuid) (position : Point) (rotation : Angle) (freshUuid : Uuid) :
    Except Err SI_Symbol :=
  SI_Symbol.init schematic cmpInstance freshUuid position rotation symbolItem

/-- Model of `SI_Symbol::getName`: component-instance name concatenated
with the variant item's suffix.  A null pointer dereference is
undefined in the C++; the `none` branches totalise it with `""`. -/
def SI_Symbol.getName (s : SI_Symbol) : String :=
  (match s.componentInstance with
   | some c => c.name
   | none => "") ++
  (match s.symbVarItem with
   | some it => it.suffix
   | none => "")

/-- Model of `SI_Symbol::setPosition`: updates `mPosition`; graphics
and pin repainting have no model-visible effect. -/
def SI_Symbol.setPosition (s : SI_Symbol) (newPos : Point) : SI_Symbol :=
  { s with position := newPos }

/-- Model of `SI_Symbol::setRotation`: updates `mRotation`. -/
def SI_Symbol.setRotation (s : SI_Symbol) (newRotation : Angle) : SI_Symbol :=
  { s with rotation := newRotation }

/-- Model of `GraphicsScene`: the UUIDs of the items it shows. -/
structure GraphicsScene where
  items : List Uuid

/-- Model of `SI_Symbol::addToSchematic`: registers with the component
instance and adds the symbol's and each pin's graphics item to the
scene; no member of the `SI_Symbol` itself is assigned, so the symbol
is returned unchanged. -/
def SI_Symbol.addToSchematic (s : SI_Symbol) (scene : GraphicsScene) :
    SI_Symbol × GraphicsScene :=
  (s, ⟨scene.items ++ s.uuid :: s.pins.map (fun p => p.2.uuid)⟩)

/-- Model of `SI_Symbol::removeFromSchematic`: the mirror image of
`addToSchematic`; again no member of the `SI_Symbol` is assigned. -/
def SI_Symbol.removeFromSchematic (s : SI_Symbol) (scene : GraphicsScene) :
    SI_Symbol × GraphicsScene :=
  (s, ⟨scene.items.filter
        (fun i => decide (i ≠ s.uuid) && decide (i ∉ s.pins.map (fun p => p.2.uuid)))⟩)

/-- Model of `SI_Symbol::serializeToXmlDomElement`: throws `LogicError`
when `checkAttributesValidity` fails, otherwise builds the `symbol`
element with attributes `uuid`, `component_instance`, `symbol_item`
and one `position` child with `x`, `y`, `rotation`.  (The final match
arm is unreachable: validity forces both pointers non-null.) -/
def SI_Symbol.serializeToXmlDomElement (s : SI_Symbol) : Except Err XmlDomElement :=
  if !s.checkAttributesValidity then .error .logicError
  else
    match s.componentInstance, s.symbVarItem with
    | some c, some it =>
      .ok (XmlDomElement.mk "symbol"
        [("uuid", .uuidV s.uuid),
         ("component_instance", .uuidV c.uuid),
         ("symbol_item", .uuidV it.uuid)]
        [XmlDomElement.mk "position"
          [("x", .lengthV s.position.x),
           ("y", .lengthV s.position.y),
           ("rotation", .angleV s.rotation)] []])
    | _, _ => .error .logicError

/-- Model of `SI_Symbol::mapToScene`, which computes
`(mPosition + relativePos).rotated(mRotation, mPosition)`.
`Point::rotated(angle, center)` lives in librepcbcommon (outside the
excerpt) and is passed in as the parameter `rotated`, applied as
`rotated p angle center`. -/
def SI_Symbol.mapToScene (rotated : Point → Angle → Point → Point) (s : SI_Symbol)
    (relativePos : Point) : Point :=
  rotated (s.position + relativePos) s.rotation s.position

/-- Translation of a point by an offset, used to phrase the claimed
reading of `mapToScene`. -/
def Point.translatedBy (p offset : Point) : Point :=
  ⟨p.x + offset.x, p.y + offset.y⟩

/-- The claimed reading of `mapToScene`: translate the relative
position by the instance position, then rotate the result by the
instance rotation about the instance position as center. -/
def SI_Symbol.mapToSceneSpec (rotated : Point → Angle → Point → Point) (s : SI_Symbol)
    (relativePos : Point) : Point :=
  rotated (relativePos.translatedBy s.position) s.rotation s.position

/-- Model of `SI_Symbol::getAttributeValue` (source order: the `SYM`/
empty-namespace `NAME` branch first, then the delegation branch for a
non-`SYM` namespace with `passToParents`, first to the component
instance with `passToParents = false`, then to the schematic with
`passToParents = true`).  Returning `false` with the out-parameter
untouched is modelled as `none`. -/
def SI_Symbol.getAttributeValue (s : SI_Symbol) (attrNS attrKey : String)
    (passToParents : Bool) : Option String :=
  if (attrNS = "SYM" ∨ attrNS = "") ∧ attrKey = "NAME" then
    some s.getName
  else if attrNS ≠ "SYM" ∧ passToParents = true then
    match (match s.componentInstance with
           | some c => c.attrValue attrNS attrKey false
           | none => none) with
    | some v => some v
    | none => s.schematic.attrValue attrNS attrKey true
  else
    none

/-!
Concrete example data: a schematic whose circuit holds one component
instance `cmpEx` using variant item `itemEx`, whose library holds the
two-pin symbol `symEx`; plus a mismatched variant (`schDupEx`) whose
symbol repeats a pin UUID, and XML elements used to exercise the
constructors.
-/

/-- Example library pin with UUID 10. -/
def pinA : SymbolPin := ⟨⟨10⟩⟩

/-- Example library pin with UUID 11. -/
def pinB : SymbolPin := ⟨⟨11⟩⟩

/-- Example library symbol with two pins. -/
def symEx : Symbol := ⟨⟨20⟩, [pinA, pinB]⟩

/-- Example symbol-variant item referencing `symEx`, with a two-entry
pin-signal map matching `symEx`'s pins. -/
def itemEx : SymbolVariantItem := ⟨⟨30⟩, ⟨20⟩, "-A", [(⟨10⟩, ⟨100⟩), (⟨11⟩, ⟨101⟩)]⟩

/-- Example component instance named `R1` using `itemEx`. -/
def cmpEx : ComponentInstance := ⟨⟨40⟩, "R1", ⟨[itemEx]⟩, fun _ _ _ => none⟩

/-- Example schematic: circuit with `cmpEx`, library with `symEx`. -/
def schEx : Schematic := ⟨⟨⟨[cmpEx]⟩, ⟨[symEx]⟩⟩, fun _ _ _ => none⟩

/-- The symbol instance produced by `init schEx cmpEx ⟨1⟩ ⟨0,0⟩ 0 ⟨30⟩`. -/
def sEx : SI_Symbol :=
  ⟨schEx, ⟨1⟩, some cmpEx, some itemEx, some symEx, ⟨0, 0⟩, 0,
   [(⟨10⟩, ⟨⟨10⟩⟩), (⟨11⟩, ⟨⟨11⟩⟩)]⟩

/-- The symbol instance produced by `place schEx cmpEx ⟨30⟩ ⟨0,0⟩ 0 ⟨7⟩`. -/
def sEx7 : SI_Symbol :=
  ⟨schEx, ⟨7⟩, some cmpEx, some itemEx, some symEx, ⟨0, 0⟩, 0,
   [(⟨10⟩, ⟨⟨10⟩⟩), (⟨11⟩, ⟨⟨11⟩⟩)]⟩

/-- An instance whose pointer members are all non-null but whose UUID
is the null UUID. -/
def sBadEx : SI_Symbol :=
  ⟨schEx, ⟨0⟩, some cmpEx, some itemEx, some symEx, ⟨0, 0⟩, 0, []⟩

/-- A saved `symbol` element whose `component_instance` UUID (99) does
not occur in `schEx`'s circuit. -/
def domBadEx : XmlDomElement :=
  .mk "symbol"
    [("uuid", .uuidV ⟨2⟩), ("component_instance", .uuidV ⟨99⟩),
     ("symbol_item", .uuidV ⟨30⟩)] []

/-- A library symbol that lists the same pin UUID twice. -/
def symDupEx : Symbol := ⟨⟨21⟩, [pinA, pinA]⟩

/-- A variant item referencing `symDupEx`. -/
def itemDupEx : SymbolVariantItem := ⟨⟨31⟩, ⟨21⟩, "", [(⟨10⟩, ⟨100⟩)]⟩

/-- A component instance using `itemDupEx`. -/
def cmpDupEx : ComponentInstance := ⟨⟨41⟩, "R2", ⟨[itemDupEx]⟩, fun _ _ _ => none⟩

/-- A schematic holding `cmpDupEx` and `symDupEx`. -/
def schDupEx : Schematic := ⟨⟨⟨[cmpDupEx]⟩, ⟨[symDupEx]⟩⟩, fun _ _ _ => none⟩

/-- The element `serializeToXmlDomElement` produces for `sEx`. -/
def serializedEx : XmlDomElement :=
  .mk "symbol"
    [("uuid", .uuidV ⟨1⟩), ("component_instance", .uuidV ⟨40⟩),
     ("symbol_item", .uuidV ⟨30⟩)]
    [.mk "position"
      [("x", .lengthV 0), ("y", .lengthV 0), ("rotation", .angleV 0)] []]

/-!
Helper lemmas about `buildPins`, `init`, `fromXml` and the pin-map
invariant.
-/

/-- The pin-map invariant of the spec: the key set of the pin map of a
symbol instance exactly matches the key set of its variant item's
pin-signal map — same cardinality, no duplicate pin identifiers. -/
def pinInvariant (s : SI_Symbol) : Prop :=
  ∃ it, s.symbVarItem = some it ∧
    (s.pins.map Prod.fst).Nodup ∧
    s.pins.length = it.pinSignalMap.length ∧
    ∀ u, u ∈ s.pins.map Prod.fst ↔ u ∈ it.pinSignalMap.map Prod.fst

theorem buildPins_ok_keys (pins : List SymbolPin) (psMap : List (Uuid × Uuid)) :
    ∀ acc res, buildPins pins psMap acc = .ok res →
      res.map Prod.fst = acc.map Prod.fst ++ pins.map SymbolPin.uuid := by
  induction pins with
  | nil =>
    intro acc res h
    simp only [buildPins, Except.ok.injEq] at h
    simp [← h]
  | cons p rest ih =>
    intro acc res h
    simp only [buildPins] at h
    split at h
    · exact absurd h (by simp)
    · split at h
      · exact absurd h (by simp)
      · have := ih (acc ++ [(p.uuid, ⟨p.uuid⟩)]) res h
        simpa [List.append_assoc] using this

theorem buildPins_ok_mem (pins : List SymbolPin) (psMap : List (Uuid × Uuid)) :
    ∀ acc res, buildPins pins psMap acc = .ok res →
      ∀ p ∈ pins, p.uuid ∈ psMap.map Prod.fst := by
  induction pins with
  | nil => intro acc res _ p hp; cases hp
  | cons q rest ih =>
    intro acc res h p hp
    simp only [buildPins] at h
    split at h
    · exact absurd h (by simp)
    · split at h
      · exact absurd h (by simp)
      · rcases List.mem_cons.mp hp with rfl | hp'
        · next _ hmem => exact not_not.mp hmem
        · exact ih _ res h p hp'

theorem buildPins_ok_nodup (pins : List SymbolPin) (psMap : List (Uuid × Uuid)) :
    ∀ acc res, buildPins pins psMap acc = .ok res →
      (acc.map Prod.fst).Nodup → (res.map Prod.fst).Nodup := by
  induction pins with
  | nil =>
    intro acc res h hacc
    simp only [buildPins, Except.ok.injEq] at h
    exact h ▸ hacc
  | cons p rest ih =>
    intro acc res h hacc
    simp only [buildPins] at h
    split at h
    · exact absurd h (by simp)
    · split at h
      · exact absurd h (by simp)
      · next hnotmem _ =>
        refine ih _ res h ?_
        have hdisj : (acc.map Prod.fst).Disjoint [p.uuid] := by
          intro x hx hx'
          rw [List.mem_singleton] at hx'
          exact hnotmem (hx' ▸ hx)
        have : (acc.map Prod.fst ++ [p.uuid]).Nodup :=
          List.Nodup.append hacc (List.nodup_singleton _) hdisj
        simpa using this

/-- A duplicate-free list that injects into a list of no greater
length has the same members. -/
theorem mem_iff_mem_of_nodup_subset_length {K M : List Uuid} (hK : K.Nodup)
    (hsub : ∀ x ∈ K, x ∈ M) (hlen : M.length ≤ K.length) :
    ∀ x, x ∈ M ↔ x ∈ K := by
  have hsubF : K.toFinset ⊆ M.toFinset := by
    intro x hx
    exact List.mem_toFinset.mpr (hsub x (List.mem_toFinset.mp hx))
  have hcard : M.toFinset.card ≤ K.toFinset.card := by
    calc M.toFinset.card ≤ M.length := M.toFinset_card_le
    _ ≤ K.length := hlen
    _ = K.toFinset.card := (List.toFinset_card_of_nodup hK).symm
  have heq : K.toFinset = M.toFinset := Finset.eq_of_subset_of_card_le hsubF hcard
  intro x
  constructor
  · intro hx
    exact List.mem_toFinset.mp (heq ▸ List.mem_toFinset.mpr hx)
  · intro hx
    exact List.mem_toFinset.mp (heq ▸ List.mem_toFinset.mpr hx)

/-- Characterisation of a successful `init`: both lookups succeeded,
the pin loop succeeded, the counts agree, the UUID is non-null, and
the resulting instance is the record built from the arguments. -/
theorem init_ok_elim {sch : Schematic} {c : ComponentInstance} {u : Uuid} {pos : Point}
    {rot : Angle} {ivu : Uuid} {s : SI_Symbol}
    (h : SI_Symbol.init sch c u pos rot ivu = .ok s) :
    ∃ it sym pins,
      c.symbolVariant.getItemByUuid ivu = some it ∧
      sch.project.library.getSymbol it.symbolUuid = some sym ∧
      buildPins sym.pins it.pinSignalMap [] = .ok pins ∧
      pins.length = it.pinSignalMap.length ∧
      Uuid.isNull u = false ∧
      s = ⟨sch, u, some c, some it, some sym, pos, rot, pins⟩ := by
  unfold SI_Symbol.init at h
  split at h
  · exact absurd h (by simp)
  · next it hit =>
    split at h
    · exact absurd h (by simp)
    · next sym hsym =>
      split at h
      · exact absurd h (by simp)
      · next pins hpins =>
        split at h
        · exact absurd h (by simp)
        · next hlen =>
          split at h
          · next hvalid =>
            have hnull : Uuid.isNull u = false := by
              cases hval : Uuid.isNull u with
              | false => rfl
              | true => simp [SI_Symbol.checkAttributesValidity, hval] at hvalid
            exact ⟨it, sym, pins, hit, hsym, hpins, not_not.mp hlen, hnull,
              (Except.ok.inj h).symm⟩
          · exact absurd h (by simp)

/-- Characterisation of a successful `fromXml`: every parse step
succeeded, the component instance resolved, and the result is the
corresponding `init`. -/
theorem fromXml_ok_elim {sch : Schematic} {dom : XmlDomElement} {s : SI_Symbol}
    (h : SI_Symbol.fromXml sch dom = .ok s) :
    ∃ u gcU ci posEl x y rot ivu,
      dom.getUuidAttribute "uuid" = .ok u ∧
      dom.getUuidAttribute "component_instance" = .ok gcU ∧
      sch.project.circuit.getComponentInstanceByUuid gcU = some ci ∧
      dom.getFirstChild "position" = .ok posEl ∧
      posEl.getLengthAttribute "x" = .ok x ∧
      posEl.getLengthAttribute "y" = .ok y ∧
      posEl.getAngleAttribute "rotation" = .ok rot ∧
      dom.getUuidAttribute "symbol_item" = .ok ivu ∧
      SI_Symbol.init sch ci u ⟨x, y⟩ rot ivu = .ok s := by
  unfold SI_Symbol.fromXml at h
  split at h
  · exact absurd h (by simp)
  · next u hu =>
    split at h
    · exact absurd h (by simp)
    · next gcU hgc =>
      split at h
      · exact absurd h (by simp)
      · next ci hci =>
        split at h
        · exact absurd h (by simp)
        · next posEl hpos =>
          split at h
          · exact absurd h (by simp)
          · next x hx =>
            split at h
            · exact absurd h (by simp)
            · next y hy =>
              split at h
              · exact absurd h (by simp)
              · next rot hrot =>
                split at h
                · exact absurd h (by simp)
                · next ivu hivu =>
                  exact ⟨u, gcU, ci, posEl, x, y, rot, ivu,
                    hu, hgc, hci, hpos, hx, hy, hrot, hivu, h⟩

/-- A successful `init` establishes the pin-map invariant. -/
theorem pinInvariant_of_init_ok {sch : Schematic} {c : ComponentInstance} {u : Uuid}
    {pos : Point} {rot : Angle} {ivu : Uuid} {s : SI_Symbol}
    (h : SI_Symbol.init sch c u pos rot ivu = .ok s) : pinInvariant s := by
  obtain ⟨it, sym, pins, hit, hsym, hpins, hlen, hnull, rfl⟩ := init_ok_elim h
  have hkeys : pins.map Prod.fst = sym.pins.map SymbolPin.uuid := by
    simpa using buildPins_ok_keys sym.pins it.pinSignalMap [] pins hpins
  have hnd : (pins.map Prod.fst).Nodup :=
    buildPins_ok_nodup sym.pins it.pinSignalMap [] pins hpins (by simp)
  have hsub : ∀ x ∈ pins.map Prod.fst, x ∈ it.pinSignalMap.map Prod.fst := by
    intro x hx
    rw [hkeys] at hx
    obtain ⟨p, hp, rfl⟩ := List.mem_map.mp hx
    exact buildPins_ok_mem sym.pins it.pinSignalMap [] pins hpins p hp
  have hlen2 : (it.pinSignalMap.map Prod.fst).length ≤ (pins.map Prod.fst).length := by
    simp [hlen]
  exact ⟨it, rfl, hnd, hlen, fun x =>
    (mem_iff_mem_of_nodup_subset_length hnd hsub hlen2 x).symm⟩

/-- C1: after either constructor completes successfully, the key set
of the instance's pin map exactly matches the key set of its variant
item's pin-signal map (same cardinality, no duplicate pin UUIDs), and
the invariant is preserved by `setPosition`, `setRotation`,
`addToSchematic`, `removeFromSchematic` and `serializeToXmlDomElement`
(the latter three never assign any member of the instance). -/
theorem c1_pin_map_matches_pin_signal_map
    (sch : Schematic) (c : ComponentInstance) (u : Uuid) (pos newPos : Point)
    (rot newRot : Angle) (ivu freshU : Uuid) (dom : XmlDomElement)
    (scene : GraphicsScene) (s : SI_Symbol) :
    (SI_Symbol.init sch c u pos rot ivu = .ok s →
      pinInvariant s ∧
      pinInvariant (s.setPosition newPos) ∧
      pinInvariant (s.setRotation newRot) ∧
      pinInvariant (s.addToSchematic scene).1 ∧
      pinInvariant (s.removeFromSchematic scene).1 ∧
      (∀ e, s.serializeToXmlDomElement = .ok e → pinInvariant s)) ∧
    (SI_Symbol.fromXml sch dom = .ok s → pinInvariant s) ∧
    (SI_Symbol.place sch c ivu pos rot freshU = .ok s → pinInvariant s) := by
  refine ⟨?_, ?_, ?_⟩
  · intro h
    have hs := pinInvariant_of_init_ok h
    exact ⟨hs, hs, hs, hs, hs, fun _ _ => hs⟩
  · intro h
    obtain ⟨u', gcU, ci, posEl, x, y, rot', ivu', _, _, _, _, _, _, _, _, hinit⟩ :=
      fromXml_ok_elim h
    exact pinInvariant_of_init_ok hinit
  · intro h
    have h' : SI_Symbol.init sch c freshU pos rot ivu = .ok s := h
    exact pinInvariant_of_init_ok h'

/-- Witness for C1 at the concrete two-pin example. -/
theorem c1_pin_map_matches_pin_signal_map_witness : pinInvariant sEx :=
  ((c1_pin_map_matches_pin_signal_map schEx cmpEx ⟨1⟩ ⟨0, 0⟩ ⟨0, 0⟩ 0 0 ⟨30⟩ ⟨1⟩
    domBadEx ⟨[]⟩ sEx).1 rfl).1

/-- C2: construction fails (the `Except` result is an error, so no
instance is produced) whenever the referenced component instance
cannot be resolved in the circuit, the symbol-variant item cannot be
resolved by its UUID, or the library symbol referenced by the variant
item cannot be resolved in the project library; for both the XML
constructor (`fromXml`) and the placement constructor (`place`, via
`init`). -/
theorem c2_unresolvable_reference_raises (sch : Schematic) (dom : XmlDomElement)
    (c : ComponentInstance) (u : Uuid) (pos : Point) (rot : Angle) (ivu freshU : Uuid) :
    (∀ gcU, dom.getUuidAttribute "component_instance" = .ok gcU →
      sch.project.circuit.getComponentInstanceByUuid gcU = none →
      ∃ e, SI_Symbol.fromXml sch dom = .error e) ∧
    (c.symbolVariant.getItemByUuid ivu = none →
      ∃ e, SI_Symbol.init sch c u pos rot ivu = .error e) ∧
    (∀ it, c.symbolVariant.getItemByUuid ivu = some it →
      sch.project.library.getSymbol it.symbolUuid = none →
      ∃ e, SI_Symbol.init sch c u pos rot ivu = .error e) ∧
    (c.symbolVariant.getItemByUuid ivu = none →
      ∃ e, SI_Symbol.place sch c ivu pos rot freshU = .error e) ∧
    (∀ it, c.symbolVariant.getItemByUuid ivu = some it →
      sch.project.library.getSymbol it.symbolUuid = none →
      ∃ e, SI_Symbol.place sch c ivu pos rot freshU = .error e) := by
  refine ⟨?_, ?_, ?_, ?_, ?_⟩
  · intro gcU hattr hnone
    cases hres : SI_Symbol.fromXml sch dom with
    | error e => exact ⟨e, rfl⟩
    | ok s =>
      exfalso
      obtain ⟨u', gcU', ci, posEl, x, y, rot', ivu', hu, hgc, hci, _, _, _, _, _, _⟩ :=
        fromXml_ok_elim hres
      have hg : gcU' = gcU := Except.ok.inj (hgc.symm.trans hattr)
      rw [hg, hnone] at hci
      simp at hci
  · intro hnone
    exact ⟨.symbVarItemInvalid ivu, by simp [SI_Symbol.init, hnone]⟩
  · intro it hit hnone
    exact ⟨.symbolNotFound it.symbolUuid, by simp [SI_Symbol.init, hit, hnone]⟩
  · intro hnone
    exact ⟨.symbVarItemInvalid ivu, by simp [SI_Symbol.place, SI_Symbol.init, hnone]⟩
  · intro it hit hnone
    exact ⟨.symbolNotFound it.symbolUuid,
      by simp [SI_Symbol.place, SI_Symbol.init, hit, hnone]⟩

/-- Witness for C2: loading `domBadEx` against `schEx` fails, because
component UUID 99 is not in the circuit. -/
theorem c2_unresolvable_reference_raises_witness :
    ∃ e, SI_Symbol.fromXml schEx domBadEx = .error e :=
  (c2_unresolvable_reference_raises schEx domBadEx cmpEx ⟨1⟩ ⟨0, 0⟩ 0 ⟨30⟩ ⟨1⟩).1
    ⟨99⟩ rfl rfl

/-- C3: once the variant item and the library symbol resolve,
construction fails whenever the symbol's pin set and the item's
pin-signal map disagree in membership (a duplicated pin UUID, or a pin
UUID absent from the map) or in count (the map has more entries than
the symbol has pins). -/
theorem c3_pin_mismatch_raises (sch : Schematic) (c : ComponentInstance) (u : Uuid)
    (pos : Point) (rot : Angle) (ivu : Uuid) (it : SymbolVariantItem) (sym : Symbol)
    (hit : c.symbolVariant.getItemByUuid ivu = some it)
    (hsym : sch.project.library.getSymbol it.symbolUuid = some sym)
    (hmm : ¬(sym.pins.map SymbolPin.uuid).Nodup
        ∨ (∃ p ∈ sym.pins, p.uuid ∉ it.pinSignalMap.map Prod.fst)
        ∨ sym.pins.length < it.pinSignalMap.length) :
    ∃ e, SI_Symbol.init sch c u pos rot ivu = .error e := by
  cases hres : SI_Symbol.init sch c u pos rot ivu with
  | error e => exact ⟨e, rfl⟩
  | ok s =>
    exfalso
    obtain ⟨it', sym', pins, hit', hsym', hpins, hlen, _, _⟩ := init_ok_elim hres
    have heqI : it' = it := Option.some.inj (hit'.symm.trans hit)
    rw [heqI] at hsym' hpins hlen
    have heqS : sym' = sym := Option.some.inj (hsym'.symm.trans hsym)
    rw [heqS] at hpins
    have hkeys : pins.map Prod.fst = sym.pins.map SymbolPin.uuid := by
      simpa using buildPins_ok_keys sym.pins it.pinSignalMap [] pins hpins
    rcases hmm with hdup | ⟨p, hp, hnot⟩ | hcount
    · exact hdup (hkeys ▸ buildPins_ok_nodup sym.pins it.pinSignalMap [] pins hpins (by simp))
    · exact hnot (buildPins_ok_mem sym.pins it.pinSignalMap [] pins hpins p hp)
    · have hpl : pins.length = sym.pins.length := by
        have := congrArg List.length hkeys
        simpa using this
      omega

/-- Witness for C3: the duplicated-pin symbol `symDupEx` makes `init`
fail. -/
theorem c3_pin_mismatch_raises_witness :
    ∃ e, SI_Symbol.init schDupEx cmpDupEx ⟨1⟩ ⟨0, 0⟩ 0 ⟨31⟩ = .error e :=
  c3_pin_mismatch_raises schDupEx cmpDupEx ⟨1⟩ ⟨0, 0⟩ 0 ⟨31⟩ itemDupEx symDupEx
    rfl rfl (Or.inl (by decide))

/-- C4 counterexample: `sBadEx` has a non-null component instance,
variant item and library symbol (and, as in the C++, its sheet
reference always exists), yet `checkAttributesValidity` is `false`
because its UUID is null — so validity is not equivalent to the four
references of the claim being non-null. -/
theorem c4_validity_counterexample :
    ¬(SI_Symbol.checkAttributesValidity sBadEx = true ↔
      (sBadEx.componentInstance.isSome = true ∧ sBadEx.symbVarItem.isSome = true ∧
       sBadEx.symbol.isSome = true)) := by
  intro hiff
  have := hiff.mpr ⟨rfl, rfl, rfl⟩
  simp [sBadEx, SI_Symbol.checkAttributesValidity, Uuid.isNull] at this

/-- C4 amended: `checkAttributesValidity` returns true if and only if
the variant-item pointer, the symbol pointer and the component
instance pointer are non-null and the UUID is non-null; the sheet
reference is a C++ reference and is never (and cannot be) checked. -/
theorem c4_validity_iff (s : SI_Symbol) :
    SI_Symbol.checkAttributesValidity s = true ↔
      (s.symbVarItem.isSome = true ∧ s.symbol.isSome = true ∧
       Uuid.isNull s.uuid = false ∧ s.componentInstance.isSome = true) := by
  unfold SI_Symbol.checkAttributesValidity
  cases hit : s.symbVarItem <;> cases hsy : s.symbol <;>
    cases hci : s.componentInstance <;> cases hnull : Uuid.isNull s.uuid <;>
      simp [hit, hsy, hci, hnull]

/-- C5: for a valid instance, serialization produces a `symbol` element
carrying exactly the attributes `uuid`, `component_instance` and
`symbol_item`, and exactly one child element `position` carrying the
attributes `x`, `y` and `rotation`. -/
theorem c5_serialize_shape (s : SI_Symbol) (c : ComponentInstance)
    (it : SymbolVariantItem) (hc : s.componentInstance = some c)
    (hit : s.symbVarItem = some it)
    (hv : SI_Symbol.checkAttributesValidity s = true) :
    s.serializeToXmlDomElement = .ok (XmlDomElement.mk "symbol"
      [("uuid", .uuidV s.uuid),
       ("component_instance", .uuidV c.uuid),
       ("symbol_item", .uuidV it.uuid)]
      [XmlDomElement.mk "position"
        [("x", .lengthV s.position.x), ("y", .lengthV s.position.y),
         ("rotation", .angleV s.rotation)] []]) := by
  unfold SI_Symbol.serializeToXmlDomElement
  rw [hv]
  simp [hc, hit]

/-- Witness for C5 at the concrete instance `sEx`. -/
theorem c5_serialize_shape_witness :
    SI_Symbol.serializeToXmlDomElement sEx = .ok serializedEx :=
  c5_serialize_shape sEx cmpEx itemEx rfl rfl rfl

/-- C6: the placement constructor assigns exactly the value produced by
the random-UUID generator (modelled as the input `freshU`), while the
XML constructor takes its UUID from the `uuid` attribute of the saved
element. -/
theorem c6_uuid_assignment (sch : Schematic) (c : ComponentInstance) (itU : Uuid)
    (pos : Point) (rot : Angle) (freshU : Uuid) (dom : XmlDomElement)
    (s s' : SI_Symbol) :
    (SI_Symbol.place sch c itU pos rot freshU = .ok s → s.uuid = freshU) ∧
    (SI_Symbol.fromXml sch dom = .ok s' →
      dom.getUuidAttribute "uuid" = .ok s'.uuid) := by
  constructor
  · intro h
    have h' : SI_Symbol.init sch c freshU pos rot itU = .ok s := h
    obtain ⟨it, sym, pins, _, _, _, _, _, rfl⟩ := init_ok_elim h'
    rfl
  · intro h
    obtain ⟨u, gcU, ci, posEl, x, y, rot', ivu, hu, _, _, _, _, _, _, _, hinit⟩ :=
      fromXml_ok_elim h
    obtain ⟨it, sym, pins, _, _, _, _, _, rfl⟩ := init_ok_elim hinit
    exact hu

/-- Witness for C6: placing with generator output UUID 7 yields an
instance whose UUID is 7. -/
theorem c6_uuid_assignment_witness :
    SI_Symbol.place schEx cmpEx ⟨30⟩ ⟨0, 0⟩ 0 ⟨7⟩ = .ok sEx7 ∧ sEx7.uuid = ⟨7⟩ :=
  ⟨rfl, (c6_uuid_assignment schEx cmpEx ⟨30⟩ ⟨0, 0⟩ 0 ⟨7⟩ domBadEx sEx7 sEx7).1 rfl⟩

/-- C7: serializing a successfully constructed instance and parsing the
result back in the same schematic context (the component instance
resolves to the same object in the circuit) reconstructs the very same
instance — in particular the same UUID, position, rotation, component
instance, variant item and library symbol. -/
theorem c7_serialize_parse_roundtrip (sch : Schematic) (c : ComponentInstance)
    (u : Uuid) (pos : Point) (rot : Angle) (ivu : Uuid) (s : SI_Symbol)
    (e : XmlDomElement)
    (hinit : SI_Symbol.init sch c u pos rot ivu = .ok s)
    (hc : sch.project.circuit.getComponentInstanceByUuid c.uuid = some c)
    (hser : s.serializeToXmlDomElement = .ok e) :
    SI_Symbol.fromXml sch e = .ok s := by
  obtain ⟨it, sym, pins, hit, hsym, hpins, hlen, hnull, hs⟩ := init_ok_elim hinit
  have hval : SI_Symbol.checkAttributesValidity
      ⟨sch, u, some c, some it, some sym, pos, rot, pins⟩ = true := by
    simp [SI_Symbol.checkAttributesValidity, hnull]
  have hser' : SI_Symbol.serializeToXmlDomElement
      ⟨sch, u, some c, some it, some sym, pos, rot, pins⟩ =
      .ok (XmlDomElement.mk "symbol"
        [("uuid", .uuidV u),
         ("component_instance", .uuidV c.uuid),
         ("symbol_item", .uuidV it.uuid)]
        [XmlDomElement.mk "position"
          [("x", .lengthV pos.x), ("y", .lengthV pos.y),
           ("rotation", .angleV rot)] []]) := by
    unfold SI_Symbol.serializeToXmlDomElement
    rw [hval]
    rfl
  rw [hs] at hser
  have he : e = XmlDomElement.mk "symbol"
      [("uuid", .uuidV u),
       ("component_instance", .uuidV c.uuid),
       ("symbol_item", .uuidV it.uuid)]
      [XmlDomElement.mk "position"
        [("x", .lengthV pos.x), ("y", .lengthV pos.y),
         ("rotation", .angleV rot)] []] :=
    Except.ok.inj (hser.symm.trans hser')
  have hitu : it.uuid = ivu := by
    have hfind := List.find?_some hit
    exact of_decide_eq_true hfind
  subst he
  have h1 : SI_Symbol.fromXml sch (XmlDomElement.mk "symbol"
      [("uuid", .uuidV u),
       ("component_instance", .uuidV c.uuid),
       ("symbol_item", .uuidV it.uuid)]
      [XmlDomElement.mk "position"
        [("x", .lengthV pos.x), ("y", .lengthV pos.y),
         ("rotation", .angleV rot)] []]) =
      (match sch.project.circuit.getComponentInstanceByUuid c.uuid with
       | none => Except.error (Err.componentNotFound c.uuid)
       | some ci => SI_Symbol.init sch ci u pos rot it.uuid) := rfl
  rw [h1, hc, hitu]
  exact hinit

/-- Witness for C7: round-tripping the concrete instance `sEx` through
`serializedEx` reconstructs `sEx`. -/
theorem c7_serialize_parse_roundtrip_witness :
    SI_Symbol.fromXml schEx serializedEx = .ok sEx :=
  c7_serialize_parse_roundtrip schEx cmpEx ⟨1⟩ ⟨0, 0⟩ 0 ⟨30⟩ sEx serializedEx
    rfl rfl rfl

/-- Unfolding of `Point` addition. -/
theorem Point.add_def (p q : Point) : p + q = ⟨p.x + q.x, p.y + q.y⟩ := rfl

/-- C8: `mapToScene` computes exactly the claimed composition —
translate the relative position by the instance position, then rotate
the result by the instance rotation about the instance position as
center — for any rotation primitive. -/
theorem c8_mapToScene_translate_then_rotate (rotated : Point → Angle → Point → Point)
    (s : SI_Symbol) (relativePos : Point) :
    SI_Symbol.mapToScene rotated s relativePos =
      SI_Symbol.mapToSceneSpec rotated s relativePos := by
  unfold SI_Symbol.mapToScene SI_Symbol.mapToSceneSpec
  congr 1
  rw [Point.add_def]
  unfold Point.translatedBy
  simp [Int.add_comm]

/-- C9: the full case analysis of `getAttributeValue` — the `NAME`
branch fires exactly for namespace `SYM` or empty; namespace `SYM`
with any other key returns nothing for every instance and every
`passToParents` (so without consulting the parents); delegation (first
the component instance with `passToParents = false`, then the
schematic with `passToParents = true`) happens only for a non-`SYM`
namespace with `passToParents` set. -/
theorem c9_getAttributeValue_cases (s : SI_Symbol) (attrNS attrKey : String)
    (passToParents : Bool) :
    ((attrNS = "SYM" ∨ attrNS = "") → attrKey = "NAME" →
      ∀ c it, s.componentInstance = some c → s.symbVarItem = some it →
        s.getAttributeValue attrNS attrKey passToParents = some (c.name ++ it.suffix)) ∧
    (attrNS = "SYM" → attrKey ≠ "NAME" →
      s.getAttributeValue attrNS attrKey passToParents = none) ∧
    (∀ c, s.componentInstance = some c → attrNS ≠ "SYM" → passToParents = true →
      ¬((attrNS = "SYM" ∨ attrNS = "") ∧ attrKey = "NAME") →
      s.getAttributeValue attrNS attrKey passToParents =
        (match c.attrValue attrNS attrKey false with
         | some v => some v
         | none => s.schematic.attrValue attrNS attrKey true)) ∧
    (attrNS ≠ "SYM" → passToParents = false → ¬(attrNS = "" ∧ attrKey = "NAME") →
      s.getAttributeValue attrNS attrKey passToParents = none) := by
  refine ⟨?_, ?_, ?_, ?_⟩
  · intro hns hkey c it hc hit
    unfold SI_Symbol.getAttributeValue
    rw [if_pos ⟨hns, hkey⟩]
    simp [SI_Symbol.getName, hc, hit]
  · intro hns hkey
    unfold SI_Symbol.getAttributeValue
    rw [if_neg (fun hcond => hkey hcond.2), if_neg (fun hcond => hcond.1 hns)]
  · intro c hc hns hpass hnotname
    unfold SI_Symbol.getAttributeValue
    rw [if_neg hnotname, if_pos ⟨hns, hpass⟩, hc]
  · intro hns hpass hnot
    unfold SI_Symbol.getAttributeValue
    rw [if_neg, if_neg]
    · intro hcond
      rw [hpass] at hcond
      exact Bool.false_ne_true hcond.2
    · intro hcond
      rcases hcond.1 with h1 | h1
      · exact hns h1
      · exact hnot ⟨h1, hcond.2⟩

/-- Witness for C9: on `sEx`, namespace `SYM` with key `NAME` returns
the instance name `R1-A`. -/
theorem c9_getAttributeValue_cases_witness :
    SI_Symbol.getAttributeValue sEx "SYM" "NAME" true = some "R1-A" :=
  (c9_getAttributeValue_cases sEx "SYM" "NAME" true).1 (Or.inl rfl) rfl
    cmpEx itemEx rfl rfl

end LibrePCB
